import Mathlib

/-!
Verification of the diagnostic rule engine of networkhealth.py: the seven-blob
analyzer analyze_all and the topology validator extract_bad_ap_names, embedded
shallowly over Lean strings.  Python strings are modelled through their
character lists; the ambient current-month read (datetime strftime) is passed
as an explicit parameter, as the design notes of the specification direct.
-/

namespace NetworkHealth

/-- Python str whitespace (the ASCII subset, which is all that device output uses). -/
def pyIsSpace (c : Char) : Bool :=
  c = ' ' || c = '\t' || c = '\n' || c = '\r' || c = '\x0b' || c = '\x0c'

/-- Python str.strip with no arguments: drop whitespace from both ends. -/
def pyStrip (s : String) : String :=
  ⟨((s.data.dropWhile pyIsSpace).reverse.dropWhile pyIsSpace).reverse⟩

/-- Python str.lower, modelled on ASCII letters (device output is ASCII). -/
def pyLower (s : String) : String := ⟨s.data.map Char.toLower⟩

/-- Contiguous containment of one character list in another. -/
def listInfix (needle : List Char) : List Char → Bool
  | [] => needle.isEmpty
  | c :: rest => needle.isPrefixOf (c :: rest) || listInfix needle rest

/-- Python substring containment test, the in operator on str. -/
def pyContains (hay needle : String) : Bool := listInfix needle.data hay.data

/-- Python str.startswith with a string argument. -/
def pyStartsWith (s pre : String) : Bool := pre.data.isPrefixOf s.data

/-- Worker for str.splitlines: accumulate the current line (reversed) and split at
newline, carriage return, or the two-character sequence; no trailing empty line. -/
def splitlinesGo (acc : List Char) : List Char → List String
  | [] => if acc.isEmpty then [] else [⟨acc.reverse⟩]
  | '\r' :: '\n' :: rest => ⟨acc.reverse⟩ :: splitlinesGo [] rest
  | '\n' :: rest => ⟨acc.reverse⟩ :: splitlinesGo [] rest
  | '\r' :: rest => ⟨acc.reverse⟩ :: splitlinesGo [] rest
  | c :: rest => splitlinesGo (c :: acc) rest

/-- Python str.splitlines restricted to the line breaks that occur in device output. -/
def pySplitlines (s : String) : List String := splitlinesGo [] s.data

/-- Worker for str.split with no arguments: runs of whitespace separate tokens and
produce no empty tokens. -/
def splitWsGo (acc : List Char) : List Char → List String
  | [] => if acc.isEmpty then [] else [⟨acc.reverse⟩]
  | c :: rest =>
    if pyIsSpace c then
      if acc.isEmpty then splitWsGo [] rest else ⟨acc.reverse⟩ :: splitWsGo [] rest
    else splitWsGo (c :: acc) rest

/-- Python str.split with no arguments. -/
def pySplitWs (s : String) : List String := splitWsGo [] s.data

/-- Longest digit run at the head of a character list, with the remainder. -/
def takeDigits : List Char → List Char × List Char
  | [] => ([], [])
  | c :: rest =>
    if c.isDigit then
      let p := takeDigits rest
      (c :: p.1, p.2)
    else ([], c :: rest)

/-- Numeric value of a digit run, as Python int() of the matched group. -/
def digitsVal (l : List Char) : Nat := l.foldl (fun a c => 10 * a + (c.toNat - 48)) 0

/-- Exact decimal number, the value num over ten to the exp.  Every literal the
temperature parser accepts denotes such a value, and the Celsius to Fahrenheit
conversion and the threshold comparison stay inside this class, so the embedding
computes with it exactly; Dec.toQ gives the denoted rational. -/
structure Dec where
  num : ℤ
  exp : ℕ
deriving DecidableEq

/-- Rational value denoted by an exact decimal. -/
def Dec.toQ (d : Dec) : ℚ := (d.num : ℚ) / (10 : ℚ) ^ d.exp

/-- Multiplication of an exact decimal by an integer. -/
def Dec.mulInt (d : Dec) (k : ℤ) : Dec := ⟨d.num * k, d.exp⟩

/-- Exact division of a decimal by five: one more fractional digit, doubled
mantissa. -/
def Dec.div5 (d : Dec) : Dec := ⟨2 * d.num, d.exp + 1⟩

/-- Addition of an integer to an exact decimal. -/
def Dec.addInt (d : Dec) (k : ℤ) : Dec := ⟨d.num + k * (10 : ℤ) ^ d.exp, d.exp⟩

/-- Strict comparison of an exact decimal against an integer bound. -/
def Dec.gtInt (d : Dec) (k : ℤ) : Bool := decide (k * (10 : ℤ) ^ d.exp < d.num)

/-- Exponent tail of a float literal: optional sign then one or more digits and
nothing else. -/
def pyFloatExp (mant : Dec) (r : List Char) : Option Dec :=
  let pe : Bool × List Char :=
    match r with
    | '+' :: r2 => (false, r2)
    | '-' :: r2 => (true, r2)
    | r2 => (false, r2)
  let q := takeDigits pe.2
  if q.1.isEmpty then none
  else if q.2.isEmpty then
    some (if pe.1 then ⟨mant.num, mant.exp + digitsVal q.1⟩
          else ⟨mant.num * (10 : ℤ) ^ digitsVal q.1, mant.exp⟩)
  else none

/-- Python float() applied to a whitespace-free token, restricted to finite
decimal and scientific notation (inf, nan and digit underscores do not occur in
the telemetry in scope); a successful parse is the exact value of the literal,
so the IEEE rounding of the Python runtime is modelled as exact. -/
def pyFloat? (s : String) : Option Dec :=
  let p0 : ℤ × List Char :=
    match s.data with
    | '+' :: r => (1, r)
    | '-' :: r => (-1, r)
    | r => (1, r)
  let p1 := takeDigits p0.2
  let ip := p1.1
  let p2 : Option (List Char) × List Char :=
    match p1.2 with
    | '.' :: r =>
      let q := takeDigits r
      (some q.1, q.2)
    | r => (none, r)
  if ip.isEmpty && (p2.1.getD []).isEmpty then none
  else
    let fd := p2.1.getD []
    let mant : Dec :=
      ⟨p0.1 * ((digitsVal ip : ℤ) * (10 : ℤ) ^ fd.length + (digitsVal fd : ℤ)), fd.length⟩
    match p2.2 with
    | [] => some mant
    | 'e' :: r => pyFloatExp mant r
    | 'E' :: r => pyFloatExp mant r
    | _ => none

/-- Round half to even of N over D, for positive D. -/
def intRoundHalfEven (N D : ℤ) : ℤ :=
  let q := Int.fdiv N D
  let r := N - q * D
  if 2 * r < D then q else if D < 2 * r then q + 1 else if q % 2 = 0 then q else q + 1

/-- Python fixed formatting with one decimal place of an exact decimal, rounding
half to even as IEEE formatting does at the magnitudes the temperature section
emits. -/
def formatFix1 (d : Dec) : String :=
  let n := intRoundHalfEven (10 * d.num) ((10 : ℤ) ^ d.exp)
  let m := n.natAbs
  (if n < 0 then "-" else "") ++ toString (m / 10) ++ "." ++ toString (m % 10)

/-! Fixed text fragments of the issue lines.  The three category glyphs that carry
a variation selector in the source are built from explicit code points so the
bytes match the source literals exactly. -/

/-- Header of the err-disabled section, networkhealth.py line 50. -/
def errHeader : String := "⛔ Err-disabled interfaces detected:"

/-- Per-line issue text of the power section, line 56. -/
def powerMark : String := String.mk [Char.ofNat 0x1F50C] ++ " Power supply issue: "

/-- Header of the DHCP snooping section, line 65. -/
def dhcpHeader : String :=
  String.mk [Char.ofNat 0x1F6E1, Char.ofNat 0xFE0F] ++ " DHCP Snooping messages (this month):"

/-- Leading text of the CPU issue, line 73. -/
def cpuMark : String := "⚙️ Sustained high CPU load: "

/-- Leading text of the temperature issue, line 84. -/
def tempMark : String :=
  String.mk [Char.ofNat 0x1F321, Char.ofNat 0xFE0F] ++ " High inlet temperature: "

/-- Header of the access point section, line 91. -/
def apHeader : String :=
  String.mk [Char.ofNat 0x1F4E1] ++ " Improperly named Access Points detected:"

/-- Fallback entry of line 95. -/
def noIssuesMsg : String := "✅ No critical issues detected."

/-- Sub-item indentation marker used by lines 51, 66 and 92. -/
def indentMark : String := "&nbsp;&nbsp;- "

/-! The topology name validator extract_bad_ap_names, networkhealth.py lines 10-40. -/

/-- Text after the first occurrence of sep, or none when sep does not occur. -/
def afterFirst (sep : List Char) : List Char → Option (List Char)
  | [] => none
  | c :: rest =>
    if sep.isPrefixOf (c :: rest) then some ((c :: rest).drop sep.length)
    else afterFirst sep rest

/-- Text before the first occurrence of sep (the whole list when sep is absent). -/
def beforeFirst (sep : List Char) : List Char → List Char
  | [] => []
  | c :: rest => if sep.isPrefixOf (c :: rest) then [] else c :: beforeFirst sep rest

/-- Element 1 of Python line.split applied with the literal "Device ID:", then
stripped, from networkhealth.py line 28.  The guard at line 27 only lowercases,
so when the exact literal is absent the index raises IndexError. -/
def deviceIdField (line : String) : Except String String :=
  match afterFirst "Device ID:".data line.data with
  | some rest => .ok (pyStrip ⟨beforeFirst "Device ID:".data rest⟩)
  | none => .error "IndexError: list index out of range"

/-- Search of the pattern Interface-colon-space followed by a captured run of one
or more non-comma characters, networkhealth.py line 30: the first position where
the literal matches and at least one non-comma character follows; the capture is
the maximal non-comma run there. -/
def interfaceSearch : List Char → Option String
  | [] => none
  | c :: rest =>
    if "Interface: ".data.isPrefixOf (c :: rest) then
      let tok := ((c :: rest).drop "Interface: ".data.length).takeWhile (fun ch => ch != ',')
      if tok.isEmpty then interfaceSearch rest else some ⟨tok⟩
    else interfaceSearch rest

/-- Word character of the naming regex at line 34; the regex class is word, digit
or hyphen, modelled over ASCII (all device ids in scope are ASCII). -/
def isWordChar (c : Char) : Bool := c.isAlphanum || c = '_' || c = '-'

/-- Full anchored match of the naming regex of line 34: the literal AP- followed
by one or more word characters and nothing else. -/
def apNameOk (s : String) : Bool :=
  match s.data with
  | 'A' :: 'P' :: '-' :: rest => !rest.isEmpty && rest.all isWordChar
  | _ => false

/-- Violation test of line 34: starts with the literal AP but fails the full match. -/
def isBadAp (s : String) : Bool := pyStartsWith s "AP" && !apNameOk s

/-- Interface description map of networkhealth.py lines 14-20, kept as the
insertion sequence of the Python dict (a later binding for a key shadows an
earlier one). -/
def buildIfdescMap (ifdesc_text : String) : List (String × String) :=
  (pySplitlines ifdesc_text).foldl (fun m line =>
    let parts := pySplitWs (pyStrip line)
    match parts with
    | intf :: d :: ds => m ++ [(intf, String.intercalate " " (d :: ds))]
    | _ => m) []

/-- Python dict get with the fixed default of line 35; the last binding wins. -/
def lookupDesc (m : List (String × String)) (k : String) : String :=
  match m.reverse.find? (fun p => p.1 == k) with
  | some p => p.2
  | none => "(no description)"

/-- Issue text appended at line 36 for a violating record. -/
def apIssueText (m : List (String × String)) (ap port : String) : String :=
  ap ++ " on " ++ port ++ " — " ++ lookupDesc m port

/-- Line scan of extract_bad_ap_names, networkhealth.py lines 22-39.  The two
transient fields current_ap and current_port are modelled as strings in which
the empty string stands for Python None: both values are falsy in the line-33
test and the two representations are never otherwise distinguished. -/
def apScanE (m : List (String × String)) : String → String → List String → Except String (List String)
  | _, _, [] => .ok []
  | ap, port, l :: rest =>
    let line := pyStrip l
    if pyStartsWith (pyLower line) "device id:" then
      match deviceIdField line with
      | .ok ap2 => apScanE m ap2 port rest
      | .error e => .error e
    else if pyStartsWith (pyLower line) "interface:" then
      match interfaceSearch line.data with
      | some p => apScanE m ap p rest
      | none => apScanE m ap port rest
    else if ap ≠ "" ∧ port ≠ "" then
      match apScanE m "" "" rest with
      | .ok res => .ok ((if isBadAp ap then [apIssueText m ap port] else []) ++ res)
      | .error e => .error e
    else apScanE m ap port rest

/-- extract_bad_ap_names, networkhealth.py lines 10-40, in the exception monad:
an error value models the IndexError that line 28 can raise. -/
def extract_bad_ap_namesE (cdp_text ifdesc_text : String) : Except String (List String) :=
  apScanE (buildIfdescMap ifdesc_text) "" "" (pySplitlines cdp_text)

/-! Per-category finding functions, stated one category at a time as the
specification describes them; the aggregation theorems relate them to the
statement-by-statement embedding of analyze_all below. -/

/-- A line qualifies for the err-disabled section, line 48. -/
def errLineHit (line : String) : Bool := pyContains (pyLower line) "err-disabled"

/-- Err-disabled section, networkhealth.py lines 47-51, outer whole-blob guard
included. -/
def errFindings (e : String) : List String :=
  if pyContains (pyLower e) "err-disabled" then
    let interfaces := ((pySplitlines e).filter errLineHit).map pyStrip
    if interfaces.isEmpty then []
    else errHeader :: interfaces.map (fun i => indentMark ++ i)
  else []

/-- A line qualifies for the power section, line 55. -/
def powerLineHit (line : String) : Bool :=
  ["not present", "fail", "off", "bad", "shutdown"].any (fun k => pyContains (pyLower line) k)

/-- Power section, networkhealth.py lines 54-56: one standalone issue per
qualifying line, no shared header. -/
def powerFindings (p : String) : List String :=
  (pySplitlines p).foldr (fun line acc =>
    (if powerLineHit line then [powerMark ++ pyStrip line] else []) ++ acc) []

/-- A line qualifies for the DHCP snooping section, line 62, for a given value of
the current-month abbreviation. -/
def dhcpLineHit (month line : String) : Bool :=
  pyContains (pyLower line) "dhcp_snooping" && pyStartsWith (pyStrip line) month

/-- DHCP snooping section, networkhealth.py lines 59-66, with the ambient current
month passed explicitly. -/
def dhcpFindings (month d : String) : List String :=
  let msgs := ((pySplitlines d).filter (dhcpLineHit month)).map pyStrip
  if msgs.isEmpty then []
  else dhcpHeader :: msgs.map (fun mline => indentMark ++ mline)

/-- Search of the pattern five-minutes-colon-space digits percent, line 69: the
first position where the literal matches, the following maximal digit run is
nonempty and a percent sign follows it; the capture is that digit run. -/
def cpuSearch : List Char → Option (List Char)
  | [] => none
  | c :: rest =>
    if "five minutes: ".data.isPrefixOf (c :: rest) then
      let ds := ((c :: rest).drop "five minutes: ".data.length).takeWhile Char.isDigit
      if ds.isEmpty then cpuSearch rest
      else
        match ((c :: rest).drop "five minutes: ".data.length).drop ds.length with
        | '%' :: _ => some ds
        | _ => cpuSearch rest
    else cpuSearch rest

/-- CPU issue text of line 73. -/
def cpuIssueText (n : Nat) : String := cpuMark ++ toString n ++ "% (5 min avg)"

/-- CPU section, networkhealth.py lines 69-73. -/
def cpuFindings (c : String) : List String :=
  match cpuSearch c.data with
  | some ds => if digitsVal ds > 60 then [cpuIssueText (digitsVal ds)] else []
  | none => []

/-- Celsius to Fahrenheit conversion of line 82: multiply by nine, divide by
five, add thirty-two, exactly on decimals. -/
def toFahrenheit (c : Dec) : Dec := ((c.mulInt 9).div5).addInt 32

/-- Temperature issue text of line 84. -/
def tempIssueText (tc : Dec) (line : String) : String :=
  tempMark ++ formatFix1 (toFahrenheit tc) ++ "°F (" ++ formatFix1 tc
    ++ "°C) on line: " ++ pyStrip line

/-- Findings of one whitespace token of a qualifying temperature line, lines 79-86. -/
def tempTokenFindings (line part : String) : List String :=
  match pyFloat? part with
  | some tc => if (toFahrenheit tc).gtInt 100 then [tempIssueText tc line] else []
  | none => []

/-- Findings of one line of the temperature blob, lines 77-86. -/
def tempLineFindings (line : String) : List String :=
  if pyContains (pyLower line) "inlet" then
    (pySplitWs (pyStrip line)).foldr (fun part acc => tempTokenFindings line part ++ acc) []
  else []

/-- Temperature section, networkhealth.py lines 76-86. -/
def tempFindings (t : String) : List String :=
  (pySplitlines t).foldr (fun line acc => tempLineFindings line ++ acc) []

/-- Access point section around the validator results, lines 89-92. -/
def apFindings (bad : List String) : List String :=
  if bad.isEmpty then [] else apHeader :: bad.map (fun b => indentMark ++ b)

/-- analyze_all, networkhealth.py lines 43-96, translated statement by statement:
the issues accumulator grows by append exactly where the Python appends or
extends, and the result is in the exception monad because the access point
extraction of line 89 can raise.  The ambient current month read at line 59 is
the explicit first parameter. -/
def analyze_allE (month err_text power_text dhcp_log_text cpu_text temp_text
    cdp_text ifdesc_text : String) : Except String (List String) :=
  let issues : List String := []
  let issues :=
    if pyContains (pyLower err_text) "err-disabled" then
      let interfaces := ((pySplitlines err_text).filter errLineHit).map pyStrip
      if !interfaces.isEmpty then
        (issues ++ [errHeader]) ++ interfaces.map (fun i => indentMark ++ i)
      else issues
    else issues
  let issues := (pySplitlines power_text).foldl (fun acc line =>
    if powerLineHit line then acc ++ [powerMark ++ pyStrip line] else acc) issues
  let dhcp_messages := ((pySplitlines dhcp_log_text).filter (dhcpLineHit month)).map pyStrip
  let issues :=
    if !dhcp_messages.isEmpty then
      (issues ++ [dhcpHeader]) ++ dhcp_messages.map (fun mline => indentMark ++ mline)
    else issues
  let issues :=
    match cpuSearch cpu_text.data with
    | some ds =>
      let cpu_5min := digitsVal ds
      if cpu_5min > 60 then issues ++ [cpuIssueText cpu_5min] else issues
    | none => issues
  let issues := (pySplitlines temp_text).foldl (fun acc line =>
    if pyContains (pyLower line) "inlet" then
      (pySplitWs (pyStrip line)).foldl (fun acc2 part =>
        match pyFloat? part with
        | some temp_c =>
          if (toFahrenheit temp_c).gtInt 100 then acc2 ++ [tempIssueText temp_c line] else acc2
        | none => acc2) acc
    else acc) issues
  match extract_bad_ap_namesE cdp_text ifdesc_text with
  | .error e => .error e
  | .ok bad_aps =>
    let issues :=
      if !bad_aps.isEmpty then
        (issues ++ [apHeader]) ++ bad_aps.map (fun b => indentMark ++ b)
      else issues
    .ok (if issues.isEmpty then [noIssuesMsg] else issues)

/-! Bridging lemmas between the decimal computations and the rational values
they denote. -/

theorem toQ_toFahrenheit (c : Dec) : (toFahrenheit c).toQ = c.toQ * 9 / 5 + 32 := by
  obtain ⟨n, e⟩ := c
  simp only [toFahrenheit, Dec.mulInt, Dec.div5, Dec.addInt, Dec.toQ]
  have h : ((10 : ℚ)) ^ e ≠ 0 := pow_ne_zero _ (by norm_num)
  have h1 : ((10 : ℚ)) ^ (e + 1) ≠ 0 := pow_ne_zero _ (by norm_num)
  field_simp
  ring

theorem gtInt_iff (d : Dec) (k : ℤ) : d.gtInt k = true ↔ (k : ℚ) < d.toQ := by
  obtain ⟨n, e⟩ := d
  simp only [Dec.gtInt, Dec.toQ, decide_eq_true_eq]
  rw [lt_div_iff₀ (by positivity)]
  constructor
  · intro h
    exact_mod_cast h
  · intro h
    exact_mod_cast h

/-! Accumulator lemmas: each loop of analyze_all that appends to the issues list
equals the issues list followed by the per-category findings. -/

theorem power_foldl (ls : List String) (init : List String) :
    ls.foldl (fun acc line =>
      if powerLineHit line then acc ++ [powerMark ++ pyStrip line] else acc) init
    = init ++ ls.foldr (fun line acc =>
        (if powerLineHit line then [powerMark ++ pyStrip line] else []) ++ acc) [] := by
  induction ls generalizing init with
  | nil => simp
  | cons l rest ih =>
    simp only [List.foldl_cons, List.foldr_cons]
    rw [ih]
    by_cases h : powerLineHit l <;> simp [h, List.append_assoc]

theorem temp_inner_foldl (line : String) (parts : List String) (init : List String) :
    parts.foldl (fun acc2 part =>
      match pyFloat? part with
      | some temp_c =>
        if (toFahrenheit temp_c).gtInt 100 then acc2 ++ [tempIssueText temp_c line] else acc2
      | none => acc2) init
    = init ++ parts.foldr (fun part acc => tempTokenFindings line part ++ acc) [] := by
  induction parts generalizing init with
  | nil => simp
  | cons p rest ih =>
    simp only [List.foldl_cons, List.foldr_cons]
    rw [ih]
    cases hp : pyFloat? p with
    | none => simp [tempTokenFindings, hp]
    | some tc =>
      by_cases h : (toFahrenheit tc).gtInt 100 <;>
        simp [tempTokenFindings, hp, h, List.append_assoc]

theorem temp_outer_foldl (ls : List String) (init : List String) :
    ls.foldl (fun acc line =>
      if pyContains (pyLower line) "inlet" then
        (pySplitWs (pyStrip line)).foldl (fun acc2 part =>
          match pyFloat? part with
          | some temp_c =>
            if (toFahrenheit temp_c).gtInt 100 then acc2 ++ [tempIssueText temp_c line]
            else acc2
          | none => acc2) acc
      else acc) init
    = init ++ ls.foldr (fun line acc => tempLineFindings line ++ acc) [] := by
  induction ls generalizing init with
  | nil => simp
  | cons l rest ih =>
    simp only [List.foldl_cons, List.foldr_cons]
    rw [ih]
    by_cases h : pyContains (pyLower l) "inlet"
    · rw [if_pos h, temp_inner_foldl]
      simp [tempLineFindings, h, List.append_assoc]
    · simp [tempLineFindings, h]

theorem errBlock_eq (e : String) (init : List String) :
    (if pyContains (pyLower e) "err-disabled" then
      if !(((pySplitlines e).filter errLineHit).map pyStrip).isEmpty then
        (init ++ [errHeader])
          ++ (((pySplitlines e).filter errLineHit).map pyStrip).map (fun i => indentMark ++ i)
      else init
     else init) = init ++ errFindings e := by
  rw [errFindings]
  by_cases c1 : pyContains (pyLower e) "err-disabled"
  · simp only [c1, if_pos]
    by_cases c2 : (((pySplitlines e).filter errLineHit).map pyStrip).isEmpty <;>
      simp [c2, List.append_assoc]
  · simp [c1]

theorem dhcpBlock_eq (month d : String) (init : List String) :
    (if !(((pySplitlines d).filter (dhcpLineHit month)).map pyStrip).isEmpty then
      (init ++ [dhcpHeader])
        ++ (((pySplitlines d).filter (dhcpLineHit month)).map pyStrip).map
          (fun mline => indentMark ++ mline)
     else init)
    = init ++ dhcpFindings month d := by
  rw [dhcpFindings]
  by_cases c2 : (((pySplitlines d).filter (dhcpLineHit month)).map pyStrip).isEmpty <;>
    simp [c2, List.append_assoc]

theorem cpuBlock_eq (c : String) (init : List String) :
    (match cpuSearch c.data with
     | some ds =>
       if digitsVal ds > 60 then init ++ [cpuIssueText (digitsVal ds)] else init
     | none => init) = init ++ cpuFindings c := by
  rw [cpuFindings]
  cases hc : cpuSearch c.data with
  | none => simp
  | some ds => by_cases h : digitsVal ds > 60 <;> simp [h]

theorem powerBlock_eq (p : String) (init : List String) :
    (pySplitlines p).foldl (fun acc line =>
      if powerLineHit line then acc ++ [powerMark ++ pyStrip line] else acc) init
    = init ++ powerFindings p := by
  rw [power_foldl, powerFindings]

theorem tempBlock_eq (t : String) (init : List String) :
    (pySplitlines t).foldl (fun acc line =>
      if pyContains (pyLower line) "inlet" then
        (pySplitWs (pyStrip line)).foldl (fun acc2 part =>
          match pyFloat? part with
          | some temp_c =>
            if (toFahrenheit temp_c).gtInt 100 then acc2 ++ [tempIssueText temp_c line]
            else acc2
          | none => acc2) acc
      else acc) init
    = init ++ tempFindings t := by
  rw [temp_outer_foldl, tempFindings]

theorem apBlock_eq (bad : List String) (init : List String) :
    (if !bad.isEmpty then (init ++ [apHeader]) ++ bad.map (fun b => indentMark ++ b)
     else init) = init ++ apFindings bad := by
  rw [apFindings]
  by_cases c2 : bad.isEmpty <;> simp [c2, List.append_assoc]

/-- Aggregation: on any input on which the access point extraction does not
raise, analyze_all returns the per-category findings concatenated in the fixed
order, with the fallback entry exactly when that concatenation is empty. -/
theorem analyze_allE_ok (month e p d c t cdp ifd : String) (bad : List String)
    (hb : extract_bad_ap_namesE cdp ifd = .ok bad) :
    analyze_allE month e p d c t cdp ifd =
      .ok (if (errFindings e ++ powerFindings p ++ dhcpFindings month d ++ cpuFindings c
            ++ tempFindings t ++ apFindings bad).isEmpty then [noIssuesMsg]
          else errFindings e ++ powerFindings p ++ dhcpFindings month d ++ cpuFindings c
            ++ tempFindings t ++ apFindings bad) := by
  unfold analyze_allE
  rw [hb]
  dsimp only
  rw [errBlock_eq, powerBlock_eq, dhcpBlock_eq, cpuBlock_eq, tempBlock_eq, apBlock_eq]
  simp [List.append_assoc]

/-! Behaviour lemmas of the neighbor-blob scanner. -/

/-- A raw line enters the device-id branch of line 27 after stripping and
lowercasing. -/
def startsDeviceId (l : String) : Bool := pyStartsWith (pyLower (pyStrip l)) "device id:"

/-- A raw line enters the interface branch of line 29 after stripping and
lowercasing. -/
def startsInterface (l : String) : Bool := pyStartsWith (pyLower (pyStrip l)) "interface:"

/-- On any line taking neither prefix branch, a filled record pair is evaluated
and the issue, if any, precedes whatever the reset scan of the rest yields. -/
theorem apScan_eval_step (m : List (String × String)) (ap port l : String)
    (rest : List String) (hd : startsDeviceId l = false) (hi : startsInterface l = false)
    (hap : ap ≠ "") (hport : port ≠ "") :
    apScanE m ap port (l :: rest)
      = (apScanE m "" "" rest).map
          (fun res => (if isBadAp ap then [apIssueText m ap port] else []) ++ res) := by
  rw [startsDeviceId] at hd
  rw [startsInterface] at hi
  rw [apScanE]
  simp only [hd, hi, Bool.false_eq_true, if_false]
  rw [if_pos ⟨hap, hport⟩]
  cases h : apScanE m "" "" rest <;> simp [Except.map]

/-- With the device-id field empty, a blob tail containing no device-id line
yields no finding: interface lines only move the port field and other lines
never fire because the pair test needs both fields. -/
theorem apScan_no_device (m : List (String × String)) (lines : List String)
    (h : ∀ l ∈ lines, startsDeviceId l = false) (port : String) :
    apScanE m "" port lines = .ok [] := by
  induction lines generalizing port with
  | nil => rfl
  | cons l rest ih =>
    have hd := h l (List.mem_cons_self l rest)
    have hrest : ∀ x ∈ rest, startsDeviceId x = false := fun x hx => h x (List.mem_cons_of_mem l hx)
    rw [startsDeviceId] at hd
    rw [apScanE]
    simp only [hd, Bool.false_eq_true, if_false]
    by_cases hi : pyStartsWith (pyLower (pyStrip l)) "interface:"
    · rw [if_pos hi]
      cases hs : interfaceSearch (pyStrip l).data <;> exact ih hrest _
    · rw [if_neg (by simp [hi]), if_neg (by simp)]
      exact ih hrest port

/-- With the interface field empty, a blob tail containing no interface line
yields no finding (device-id lines only overwrite the name field, or raise). -/
theorem apScan_no_interface (m : List (String × String)) (lines : List String)
    (h : ∀ l ∈ lines, startsInterface l = false) :
    ∀ (ap : String) (res : List String), apScanE m ap "" lines = .ok res → res = [] := by
  induction lines with
  | nil =>
    intro ap res hres
    rw [apScanE] at hres
    exact (Except.ok.injEq _ _).mp hres.symm
  | cons l rest ih =>
    intro ap res hres
    have hi := h l (List.mem_cons_self l rest)
    have hrest : ∀ x ∈ rest, startsInterface x = false := fun x hx => h x (List.mem_cons_of_mem l hx)
    rw [startsInterface] at hi
    rw [apScanE] at hres
    by_cases hd : pyStartsWith (pyLower (pyStrip l)) "device id:"
    · rw [if_pos hd] at hres
      cases hdf : deviceIdField (pyStrip l) with
      | ok ap2 =>
        rw [hdf] at hres
        exact ih hrest ap2 res hres
      | error err =>
        rw [hdf] at hres
        cases hres
    · rw [if_neg (by simp [hd]), if_neg (by simp [hi]), if_neg (by simp)] at hres
      exact ih hrest ap res hres

/-- A blob tail consisting only of prefix lines never yields a finding: the pair
test of line 33 is only reached on a line taking neither branch. -/
theorem apScan_only_prefix_lines (m : List (String × String)) (lines : List String)
    (h : ∀ l ∈ lines, startsDeviceId l = true ∨ startsInterface l = true) :
    ∀ (ap port : String) (res : List String), apScanE m ap port lines = .ok res → res = [] := by
  induction lines with
  | nil =>
    intro ap port res hres
    rw [apScanE] at hres
    exact (Except.ok.injEq _ _).mp hres.symm
  | cons l rest ih =>
    intro ap port res hres
    have hl := h l (List.mem_cons_self l rest)
    have hrest : ∀ x ∈ rest, startsDeviceId x = true ∨ startsInterface x = true :=
      fun x hx => h x (List.mem_cons_of_mem l hx)
    rw [startsDeviceId] at hl
    rw [startsInterface] at hl
    rw [apScanE] at hres
    by_cases hd : pyStartsWith (pyLower (pyStrip l)) "device id:"
    · rw [if_pos hd] at hres
      cases hdf : deviceIdField (pyStrip l) with
      | ok ap2 =>
        rw [hdf] at hres
        exact ih hrest ap2 port res hres
      | error err =>
        rw [hdf] at hres
        cases hres
    · have hi : pyStartsWith (pyLower (pyStrip l)) "interface:" = true := by
        rcases hl with h1 | h2
        · exact absurd h1 (by simp [hd])
        · exact h2
      rw [if_neg (by simp [hd]), if_pos hi] at hres
      cases hs : interfaceSearch (pyStrip l).data <;> rw [hs] at hres
      · exact ih hrest ap port res hres
      · exact ih hrest ap _ res hres

/-! Membership structure of the per-category findings and their distinctness
from the fallback entry. -/

theorem mem_foldr_append {α : Type} (f : α → List String) (ls : List α) (x : String) :
    x ∈ ls.foldr (fun a acc => f a ++ acc) [] ↔ ∃ a ∈ ls, x ∈ f a := by
  induction ls with
  | nil => simp
  | cons a rest ih => simp [ih]

theorem ne_of_head_ne (s t : String) (c1 c2 : Char)
    (h1 : s.data.head? = some c1) (h2 : t.data.head? = some c2) (hne : c1 ≠ c2) :
    s ≠ t := by
  intro e
  rw [e, h2] at h1
  injection h1 with h1
  exact hne h1.symm

theorem ne_noIssues_of_head (s : String) (c1 : Char)
    (h1 : s.data.head? = some c1) (hne : c1 ≠ '✅') : s ≠ noIssuesMsg :=
  ne_of_head_ne s noIssuesMsg c1 '✅' h1 rfl hne

theorem indent_ne_noIssues (s : String) : indentMark ++ s ≠ noIssuesMsg := by
  apply ne_noIssues_of_head _ '&' _ (by decide)
  rw [String.data_append]
  rfl

theorem powerIssue_ne_noIssues (s : String) : powerMark ++ s ≠ noIssuesMsg := by
  apply ne_noIssues_of_head _ (Char.ofNat 0x1F50C) _ (by decide)
  rw [String.data_append]
  rfl

theorem cpuIssue_ne_noIssues (n : Nat) : cpuIssueText n ≠ noIssuesMsg := by
  apply ne_noIssues_of_head _ '⚙' _ (by decide)
  rw [cpuIssueText, String.data_append, String.data_append]
  rfl

theorem tempIssue_ne_noIssues (tc : Dec) (line : String) :
    tempIssueText tc line ≠ noIssuesMsg := by
  apply ne_noIssues_of_head _ (Char.ofNat 0x1F321) _ (by decide)
  rw [tempIssueText, String.data_append, String.data_append, String.data_append,
    String.data_append, String.data_append]
  rfl

theorem mem_errFindings_shape (e x : String) (hx : x ∈ errFindings e) :
    x = errHeader ∨ ∃ i, x = indentMark ++ i := by
  rw [errFindings] at hx
  split at hx
  · dsimp only at hx
    split at hx
    · cases hx
    · rcases List.mem_cons.mp hx with h | h
      · exact Or.inl h
      · obtain ⟨i, _, hi⟩ := List.mem_map.mp h
        exact Or.inr ⟨i, hi.symm⟩
  · cases hx

theorem mem_powerFindings (p x : String) :
    x ∈ powerFindings p ↔ ∃ line ∈ pySplitlines p,
      powerLineHit line = true ∧ x = powerMark ++ pyStrip line := by
  rw [powerFindings, mem_foldr_append]
  constructor
  · rintro ⟨line, hline, hx⟩
    by_cases h : powerLineHit line
    · rw [if_pos h] at hx
      exact ⟨line, hline, h, (List.mem_singleton.mp hx)⟩
    · rw [if_neg h] at hx
      cases hx
  · rintro ⟨line, hline, h, rfl⟩
    exact ⟨line, hline, by rw [if_pos h]; exact List.mem_singleton.mpr rfl⟩

theorem mem_dhcpFindings_shape (month d x : String) (hx : x ∈ dhcpFindings month d) :
    x = dhcpHeader ∨ ∃ i, x = indentMark ++ i := by
  rw [dhcpFindings] at hx
  split at hx
  · cases hx
  · rcases List.mem_cons.mp hx with h | h
    · exact Or.inl h
    · obtain ⟨i, _, hi⟩ := List.mem_map.mp h
      exact Or.inr ⟨i, hi.symm⟩

theorem mem_cpuFindings_shape (c x : String) (hx : x ∈ cpuFindings c) :
    ∃ n, x = cpuIssueText n := by
  rw [cpuFindings] at hx
  split at hx
  · split at hx
    · exact ⟨_, List.mem_singleton.mp hx⟩
    · cases hx
  · cases hx

theorem mem_tempFindings_shape (t x : String) (hx : x ∈ tempFindings t) :
    ∃ tc line, x = tempIssueText tc line := by
  rw [tempFindings, mem_foldr_append] at hx
  obtain ⟨line, _, hline⟩ := hx
  rw [tempLineFindings] at hline
  split at hline
  · rw [mem_foldr_append] at hline
    obtain ⟨part, _, hpart⟩ := hline
    rw [tempTokenFindings] at hpart
    split at hpart
    · split at hpart
      · exact ⟨_, line, List.mem_singleton.mp hpart⟩
      · cases hpart
    · cases hpart
  · cases hline

theorem mem_apFindings_shape (bad : List String) (x : String) (hx : x ∈ apFindings bad) :
    x = apHeader ∨ ∃ i, x = indentMark ++ i := by
  rw [apFindings] at hx
  split at hx
  · cases hx
  · rcases List.mem_cons.mp hx with h | h
    · exact Or.inl h
    · obtain ⟨i, _, hi⟩ := List.mem_map.mp h
      exact Or.inr ⟨i, hi.symm⟩

theorem errFindings_ne_noIssues (e x : String) (hx : x ∈ errFindings e) : x ≠ noIssuesMsg := by
  rcases mem_errFindings_shape e x hx with rfl | ⟨i, rfl⟩
  · decide
  · exact indent_ne_noIssues i

theorem powerFindings_ne_noIssues (p x : String) (hx : x ∈ powerFindings p) :
    x ≠ noIssuesMsg := by
  obtain ⟨line, _, _, rfl⟩ := (mem_powerFindings p x).mp hx
  exact powerIssue_ne_noIssues _

theorem dhcpFindings_ne_noIssues (month d x : String) (hx : x ∈ dhcpFindings month d) :
    x ≠ noIssuesMsg := by
  rcases mem_dhcpFindings_shape month d x hx with rfl | ⟨i, rfl⟩
  · apply ne_noIssues_of_head _ (Char.ofNat 0x1F6E1) _ (by decide)
    rw [dhcpHeader, String.data_append]
    rfl
  · exact indent_ne_noIssues i

theorem cpuFindings_ne_noIssues (c x : String) (hx : x ∈ cpuFindings c) : x ≠ noIssuesMsg := by
  obtain ⟨n, rfl⟩ := mem_cpuFindings_shape c x hx
  exact cpuIssue_ne_noIssues n

theorem tempFindings_ne_noIssues (t x : String) (hx : x ∈ tempFindings t) : x ≠ noIssuesMsg := by
  obtain ⟨tc, line, rfl⟩ := mem_tempFindings_shape t x hx
  exact tempIssue_ne_noIssues tc line

theorem apFindings_ne_noIssues (bad : List String) (x : String) (hx : x ∈ apFindings bad) :
    x ≠ noIssuesMsg := by
  rcases mem_apFindings_shape bad x hx with rfl | ⟨i, rfl⟩
  · apply ne_noIssues_of_head _ (Char.ofNat 0x1F4E1) _ (by decide)
    rw [apHeader, String.data_append]
    rfl
  · exact indent_ne_noIssues i

/-- Declarative reading of the anchored naming regex: a full match is exactly a
character list AP- followed by a nonempty run of word characters. -/
theorem apNameOk_iff (s : String) :
    apNameOk s = true ↔ ∃ rest : List Char, s.data = 'A' :: 'P' :: '-' :: rest ∧
      rest ≠ [] ∧ ∀ ch ∈ rest, isWordChar ch = true := by
  rw [apNameOk]
  split
  next rest heq =>
    simp only [Bool.and_eq_true, Bool.not_eq_true', List.all_eq_true]
    constructor
    · rintro ⟨h1, h2⟩
      refine ⟨rest, heq, ?_, h2⟩
      intro hr
      rw [hr] at h1
      cases h1
    · rintro ⟨rest2, heq2, hne, hall⟩
      rw [heq] at heq2
      simp only [List.cons.injEq, true_and] at heq2
      subst heq2
      refine ⟨?_, hall⟩
      cases hrest : rest with
      | nil => exact absurd hrest hne
      | cons a as => rfl
  next hne =>
    simp only [Bool.false_eq_true, false_iff]
    rintro ⟨rest, heq, _, _⟩
    exact hne rest heq

/-- The description lookup of line 35 falls back to the fixed placeholder when
no entry carries the interface as key. -/
theorem lookupDesc_not_found (m : List (String × String)) (port : String)
    (h : ∀ pr ∈ m, pr.1 ≠ port) : lookupDesc m port = "(no description)" := by
  have hnone : (m.reverse.find? fun pr => pr.1 == port) = none := by
    rw [List.find?_eq_none]
    intro pr hpr
    simp only [beq_iff_eq]
    exact h pr (List.mem_reverse.mp hpr)
  rw [lookupDesc, hnone]

/-! Claim theorems. -/

/-- Claim C1, code-bug witness: analyze_all does raise on input, against the
stated design.  A neighbor-detail line that satisfies the lowercased guard
"device id:" of line 27 but does not contain the exact literal "Device ID:"
makes line 28 index element 1 of a one-element split, an IndexError; in the
model the analyzer returns that error instead of a findings list, with every
other category blob well formed (here empty). -/
theorem C1_analyze_all_raises :
    analyze_allE "Oct" "" "" "" "" "" "device id: AP-OK-1" ""
      = .error "IndexError: list index out of range" := rfl

/-- Claim C2, counterexample: after the second line of the blob the device id
APBAD and the local interface Gi1 are present simultaneously, so the record is
complete, and the id violates the naming rule, yet the scan reports nothing,
refuting that the naming check is applied to every completed record: the
check only runs upon a later line that takes neither prefix branch, and here
the blob ends first. -/
theorem C2_counterexample :
    isBadAp "APBAD" = true ∧
    extract_bad_ap_namesE "Device ID: APBAD\nInterface: Gi1," "" = .ok [] :=
  ⟨rfl, rfl⟩

/-- Claim C2, amended: the scan keeps the two transient fields; on reading a
line that takes neither prefix branch while both fields are filled, the naming
check is applied and both fields reset; with the device-id field empty, a tail
containing no device-id line yields no finding, so a subsequent interface line
without an intervening new device-id line yields no finding; and with the
interface field empty, a tail containing no interface line yields no finding,
so a device-id line with no following interface line before the next device-id
line yields no finding. -/
theorem C2_theorem :
    (∀ (m : List (String × String)) (ap port l : String) (rest : List String),
      startsDeviceId l = false → startsInterface l = false → ap ≠ "" → port ≠ "" →
      apScanE m ap port (l :: rest)
        = (apScanE m "" "" rest).map
            (fun res => (if isBadAp ap then [apIssueText m ap port] else []) ++ res)) ∧
    (∀ (m : List (String × String)) (lines : List String),
      (∀ l ∈ lines, startsDeviceId l = false) → ∀ port, apScanE m "" port lines = .ok []) ∧
    (∀ (m : List (String × String)) (lines : List String),
      (∀ l ∈ lines, startsInterface l = false) →
      ∀ ap res, apScanE m ap "" lines = .ok res → res = []) :=
  ⟨fun m ap port l rest hd hi hap hport => apScan_eval_step m ap port l rest hd hi hap hport,
   fun m lines h port => apScan_no_device m lines h port,
   fun m lines h ap res => apScan_no_interface m lines h ap res⟩

/-- Claim C2, witness at concrete inputs. -/
theorem C2_witness :
    apScanE [] "" "Gi1" ["Interface: Gi2,", "Holdtime: 120"] = .ok [] ∧
    apScanE [] "APBAD" "Gi1" ["", "Interface: Gi9,"]
      = .ok ["APBAD on Gi1 — (no description)"] := by
  constructor
  · exact C2_theorem.2.1 [] ["Interface: Gi2,", "Holdtime: 120"] (by decide) "Gi1"
  · rw [C2_theorem.1 [] "APBAD" "Gi1" "" ["Interface: Gi9,"] (by decide) (by decide)
      (by decide) (by decide)]
    rfl

/-- Claim C3, counterexample: a pair completed by the second line and followed
only by an empty line is evaluated on that empty line and yields a finding,
refuting that evaluation happens only upon a subsequent non-empty line. -/
theorem C3_counterexample :
    pySplitlines "Device ID: APBAD\nInterface: Gi1,\n\n"
      = ["Device ID: APBAD", "Interface: Gi1,", ""] ∧
    extract_bad_ap_namesE "Device ID: APBAD\nInterface: Gi1,\n\n" ""
      = .ok ["APBAD on Gi1 — (no description)"] :=
  ⟨rfl, rfl⟩

/-- Claim C3, amended: evaluation of a completed pair happens only upon reading
a subsequent line, possibly empty after stripping, that starts with neither
"device id:" nor "interface:" case-insensitively; a pair completed by the final
line of the blob, or followed only by further device-id or interface lines, is
never evaluated and produces no finding, while an empty line does trigger
evaluation. -/
theorem C3_theorem :
    (∀ (m : List (String × String)) (ap port : String), apScanE m ap port [] = .ok []) ∧
    (∀ (m : List (String × String)) (lines : List String),
      (∀ l ∈ lines, startsDeviceId l = true ∨ startsInterface l = true) →
      ∀ ap port res, apScanE m ap port lines = .ok res → res = []) ∧
    apScanE [] "APBAD2" "Gi2" [""] = .ok ["APBAD2 on Gi2 — (no description)"] :=
  ⟨fun _ _ _ => rfl,
   fun m lines h ap port res hres => apScan_only_prefix_lines m lines h ap port res hres,
   rfl⟩

/-- Claim C3, witness at concrete inputs. -/
theorem C3_witness :
    apScanE [] "APX" "Gi5" [] = .ok [] ∧ ([] : List String) = [] :=
  ⟨C3_theorem.1 [] "APX" "Gi5",
   C3_theorem.2.1 [] ["Device ID: APOK-1"] (by decide) "APZ" "Gi7" [] rfl⟩

/-- Claim C4: a completed and evaluated record is a violation iff its device id
starts with the literal AP but is not AP- followed by a nonempty run of word
characters; AP-EAST-3A1 never violates and APFLOOR2 violates; a violation
yields exactly one issue citing the device id, the local interface and the
looked-up description, the fixed placeholder standing in when the interface has
no entry in the description map, and a non-violating record yields nothing. -/
theorem C4_theorem :
    isBadAp "AP-EAST-3A1" = false ∧ isBadAp "APFLOOR2" = true ∧
    (∀ s : String, isBadAp s = true ↔ (pyStartsWith s "AP" = true ∧
      ¬ ∃ rest : List Char, s.data = 'A' :: 'P' :: '-' :: rest ∧ rest ≠ [] ∧
        ∀ ch ∈ rest, isWordChar ch = true)) ∧
    (∀ (m : List (String × String)) (ap port l : String) (rest : List String),
      startsDeviceId l = false → startsInterface l = false → ap ≠ "" → port ≠ "" →
      isBadAp ap = true →
      apScanE m ap port (l :: rest)
        = (apScanE m "" "" rest).map
            (fun res => (ap ++ " on " ++ port ++ " — " ++ lookupDesc m port) :: res)) ∧
    (∀ (m : List (String × String)) (ap port l : String) (rest : List String),
      startsDeviceId l = false → startsInterface l = false → ap ≠ "" → port ≠ "" →
      isBadAp ap = false →
      apScanE m ap port (l :: rest) = apScanE m "" "" rest) ∧
    (∀ (m : List (String × String)) (port : String),
      (∀ pr ∈ m, pr.1 ≠ port) → lookupDesc m port = "(no description)") := by
  refine ⟨rfl, rfl, ?_, ?_, ?_, fun m port h => lookupDesc_not_found m port h⟩
  · intro s
    rw [isBadAp, Bool.and_eq_true, Bool.not_eq_true']
    constructor
    · rintro ⟨h1, h2⟩
      refine ⟨h1, fun hex => ?_⟩
      rw [(apNameOk_iff s).mpr hex] at h2
      cases h2
    · rintro ⟨h1, h2⟩
      refine ⟨h1, ?_⟩
      cases hok : apNameOk s with
      | false => rfl
      | true => exact absurd ((apNameOk_iff s).mp hok) h2
  · intro m ap port l rest hd hi hap hport hbad
    rw [apScan_eval_step m ap port l rest hd hi hap hport]
    simp only [hbad, if_true]
    rfl
  · intro m ap port l rest hd hi hap hport hgood
    rw [apScan_eval_step m ap port l rest hd hi hap hport]
    simp only [hgood, Bool.false_eq_true, if_false]
    cases h : apScanE m "" "" rest <;> simp [Except.map]

/-- Claim C4, witness at concrete inputs. -/
theorem C4_witness :
    apScanE [("Gi9", "ap uplink")] "APFLOOR2" "Gi9" ["Holdtime: 120"]
      = .ok ["APFLOOR2 on Gi9 — ap uplink"] ∧
    lookupDesc [("Gi1", "d")] "Gi9" = "(no description)" := by
  constructor
  · rw [C4_theorem.2.2.2.1 [("Gi9", "ap uplink")] "APFLOOR2" "Gi9" "Holdtime: 120" []
      (by decide) (by decide) (by decide) (by decide) (by decide)]
    rfl
  · exact C4_theorem.2.2.2.2.2 [("Gi1", "d")] "Gi9" (by decide)

/-- Claim C5: when the findings of every category are empty the analyzer returns
exactly the fallback entry; when any category has findings the fallback appears
nowhere in the result; and the returned list is never empty. -/
theorem C5_theorem (month e p d c t cdp ifd : String) (bad L : List String)
    (hb : extract_bad_ap_namesE cdp ifd = .ok bad)
    (hL : analyze_allE month e p d c t cdp ifd = .ok L) :
    ((errFindings e = [] ∧ powerFindings p = [] ∧ dhcpFindings month d = [] ∧
      cpuFindings c = [] ∧ tempFindings t = [] ∧ apFindings bad = []) →
      L = [noIssuesMsg]) ∧
    ((errFindings e ≠ [] ∨ powerFindings p ≠ [] ∨ dhcpFindings month d ≠ [] ∨
      cpuFindings c ≠ [] ∨ tempFindings t ≠ [] ∨ apFindings bad ≠ []) →
      noIssuesMsg ∉ L) ∧
    L ≠ [] := by
  have key := (analyze_allE_ok month e p d c t cdp ifd bad hb).symm.trans hL
  rw [Except.ok.injEq] at key
  refine ⟨?_, ?_, ?_⟩
  · rintro ⟨h1, h2, h3, h4, h5, h6⟩
    rw [← key, h1, h2, h3, h4, h5, h6]
    rfl
  · intro hne
    have hcne : errFindings e ++ powerFindings p ++ dhcpFindings month d ++ cpuFindings c
        ++ tempFindings t ++ apFindings bad ≠ [] := by
      intro hc
      simp only [List.append_eq_nil] at hc
      obtain ⟨⟨⟨⟨⟨h1, h2⟩, h3⟩, h4⟩, h5⟩, h6⟩ := hc
      rcases hne with h | h | h | h | h | h
      · exact h h1
      · exact h h2
      · exact h h3
      · exact h h4
      · exact h h5
      · exact h h6
    have hf : (errFindings e ++ powerFindings p ++ dhcpFindings month d ++ cpuFindings c
        ++ tempFindings t ++ apFindings bad).isEmpty = false := by
      cases hc : errFindings e ++ powerFindings p ++ dhcpFindings month d ++ cpuFindings c
          ++ tempFindings t ++ apFindings bad with
      | nil => exact absurd hc hcne
      | cons a as => rfl
    rw [← key, hf]
    simp only [Bool.false_eq_true, if_false]
    intro hmem
    rcases List.mem_append.mp hmem with hmem | hmem
    rcases List.mem_append.mp hmem with hmem | hmem
    rcases List.mem_append.mp hmem with hmem | hmem
    rcases List.mem_append.mp hmem with hmem | hmem
    rcases List.mem_append.mp hmem with hmem | hmem
    · exact errFindings_ne_noIssues e noIssuesMsg hmem rfl
    · exact powerFindings_ne_noIssues p noIssuesMsg hmem rfl
    · exact dhcpFindings_ne_noIssues month d noIssuesMsg hmem rfl
    · exact cpuFindings_ne_noIssues c noIssuesMsg hmem rfl
    · exact tempFindings_ne_noIssues t noIssuesMsg hmem rfl
    · exact apFindings_ne_noIssues bad noIssuesMsg hmem rfl
  · rw [← key]
    split
    · intro h
      cases h
    next h =>
      intro hnil
      exact h (by rw [hnil]; rfl)

/-- Claim C5, witness at concrete inputs. -/
theorem C5_witness :
    [noIssuesMsg] = [noIssuesMsg] ∧ noIssuesMsg ∉ [powerMark ++ "PS1 OFF"] := by
  have h1 := C5_theorem "Oct" "" "" "" "" "" "" "" [] [noIssuesMsg] rfl rfl
  have h2 := C5_theorem "Oct" "" "PS1 OFF" "" "" "" "" "" [] [powerMark ++ "PS1 OFF"] rfl rfl
  exact ⟨h1.1 ⟨rfl, rfl, rfl, rfl, rfl, rfl⟩, h2.2.1 (Or.inr (Or.inl (by decide)))⟩

/-- Claim C6: whenever the analyzer returns a findings list and the categories
are not all empty, the list is exactly the concatenation, with no reordering or
interleaving, of the per-category results in the fixed order: interface errors,
power, security logging, CPU, temperature, topology naming. -/
theorem C6_theorem (month e p d c t cdp ifd : String) (bad L : List String)
    (hb : extract_bad_ap_namesE cdp ifd = .ok bad)
    (hL : analyze_allE month e p d c t cdp ifd = .ok L)
    (hne : errFindings e ++ powerFindings p ++ dhcpFindings month d ++ cpuFindings c
      ++ tempFindings t ++ apFindings bad ≠ []) :
    L = errFindings e ++ powerFindings p ++ dhcpFindings month d ++ cpuFindings c
      ++ tempFindings t ++ apFindings bad := by
  have key := (analyze_allE_ok month e p d c t cdp ifd bad hb).symm.trans hL
  rw [Except.ok.injEq] at key
  have hf : (errFindings e ++ powerFindings p ++ dhcpFindings month d ++ cpuFindings c
      ++ tempFindings t ++ apFindings bad).isEmpty = false := by
    cases hc : errFindings e ++ powerFindings p ++ dhcpFindings month d ++ cpuFindings c
        ++ tempFindings t ++ apFindings bad with
    | nil => exact absurd hc hne
    | cons a as => rfl
  rw [← key, hf]
  simp only [Bool.false_eq_true, if_false]

/-- Claim C6, witness at concrete inputs: a power finding and a CPU finding
appear in exactly the fixed category order. -/
theorem C6_witness :
    [powerMark ++ "PS2 fail", cpuIssueText 99]
      = errFindings "" ++ powerFindings "PS2 fail" ++ dhcpFindings "Oct" ""
        ++ cpuFindings "five minutes: 99%" ++ tempFindings "" ++ apFindings [] :=
  C6_theorem "Oct" "" "PS2 fail" "" "five minutes: 99%" "" "" "" []
    [powerMark ++ "PS2 fail", cpuIssueText 99] rfl rfl (by decide)

/-- Claim C7: the temperature parser considers only lines containing the token
inlet case-insensitively, tokenizes each such stripped line by whitespace,
silently skips tokens that do not parse as float literals, converts each parsed
Celsius value to Fahrenheit by the standard linear conversion, and emits one
issue per converted reading exceeding one hundred Fahrenheit citing both values
to one decimal and the stripped source line; the line Inlet 45.0 50.2 yields
exactly the two issues at 113.0 and 122.4 Fahrenheit and the line Inlet 30.0
yields none. -/
theorem C7_theorem :
    tempFindings "Inlet 45.0 50.2"
      = [tempMark ++ "113.0°F (45.0°C) on line: Inlet 45.0 50.2",
         tempMark ++ "122.4°F (50.2°C) on line: Inlet 45.0 50.2"] ∧
    tempFindings "Inlet 30.0" = [] ∧
    (∀ t, tempFindings t
      = (pySplitlines t).foldr (fun line acc => tempLineFindings line ++ acc) []) ∧
    (∀ line, pyContains (pyLower line) "inlet" = false → tempLineFindings line = []) ∧
    (∀ line, pyContains (pyLower line) "inlet" = true → tempLineFindings line
      = (pySplitWs (pyStrip line)).foldr (fun part acc => tempTokenFindings line part ++ acc) []) ∧
    (∀ line part, pyFloat? part = none → tempTokenFindings line part = []) ∧
    (∀ line part dc, pyFloat? part = some dc → tempTokenFindings line part
      = if (100 : ℚ) < dc.toQ * 9 / 5 + 32 then
          [tempMark ++ formatFix1 (toFahrenheit dc) ++ "°F (" ++ formatFix1 dc
            ++ "°C) on line: " ++ pyStrip line]
        else []) := by
  refine ⟨by decide, by decide, fun t => rfl, ?_, ?_, ?_, ?_⟩
  · intro line h
    rw [tempLineFindings, h]
    rfl
  · intro line h
    rw [tempLineFindings, h]
    rfl
  · intro line part h
    rw [tempTokenFindings, h]
  · intro line part dc hdc
    rw [tempTokenFindings, hdc]
    by_cases hq : (100 : ℚ) < dc.toQ * 9 / 5 + 32
    · have hgt : (toFahrenheit dc).gtInt 100 = true := by
        rw [gtInt_iff, toQ_toFahrenheit]
        exact_mod_cast hq
      rw [if_pos hq]
      simp only [hgt, if_true]
      rfl
    · have hgt : ¬((toFahrenheit dc).gtInt 100 = true) := by
        rw [gtInt_iff, toQ_toFahrenheit]
        intro hcontra
        exact hq (by exact_mod_cast hcontra)
      rw [if_neg hq]
      show (if (toFahrenheit dc).gtInt 100 = true then [tempIssueText dc line] else []) = []
      rw [if_neg hgt]

/-- Claim C7, witness: the single token 50.2 of the qualifying line produces
exactly the rounded one-decimal citation. -/
theorem C7_witness :
    tempTokenFindings "Inlet 45.0 50.2" "50.2"
      = [tempMark ++ "122.4°F (50.2°C) on line: Inlet 45.0 50.2"] := by
  have hq : (100 : ℚ) < (Dec.mk 502 1).toQ * 9 / 5 + 32 := by
    rw [Dec.toQ]
    norm_num
  have h := C7_theorem.2.2.2.2.2.2 "Inlet 45.0 50.2" "50.2" ⟨502, 1⟩ rfl
  rw [h, if_pos hq]
  decide

/-- Claim C8: the CPU parser reports the integer of the first occurrence of the
literal phrase five-minutes-colon-space followed by a digit run and a percent
sign, emitting exactly one issue mentioning that percentage iff the value
exceeds sixty, and nothing when the pattern is absent; 75 percent yields one
issue mentioning it, 40 percent yields none, no phrase yields none. -/
theorem C8_theorem :
    cpuFindings "CPU utilization for five seconds: 10%/0%; one minute: 20%; five minutes: 75%"
      = [cpuIssueText 75] ∧
    pyContains (cpuIssueText 75) "75%" = true ∧
    cpuFindings "CPU utilization for five seconds: 10%/0%; one minute: 20%; five minutes: 40%"
      = [] ∧
    cpuFindings "no such phrase here" = [] ∧
    cpuFindings "five minutes: 70% then five minutes: 90%" = [cpuIssueText 70] ∧
    (∀ cblob : String, cpuSearch cblob.data = none → cpuFindings cblob = []) ∧
    (∀ (cblob : String) (ds : List Char), cpuSearch cblob.data = some ds →
      cpuFindings cblob = if digitsVal ds > 60 then [cpuIssueText (digitsVal ds)] else []) := by
  refine ⟨by decide, by decide, by decide, by decide, by decide, ?_, ?_⟩
  · intro cblob h
    rw [cpuFindings, h]
  · intro cblob ds h
    rw [cpuFindings, h]

/-- Claim C8, witness at a concrete blob through the general pattern case. -/
theorem C8_witness : cpuFindings "five minutes: 61%" = [cpuIssueText 61] := by
  have h := C8_theorem.2.2.2.2.2.2 "five minutes: 61%" ['6', '1'] rfl
  rw [h]
  decide

/-- Claim C9: for a fixed current-month abbreviation, the security-logging
filter selects exactly the lines containing dhcp_snooping case-insensitively
whose stripped text starts with that abbreviation, emits a header plus one
sub-item per selected line, emits no header when nothing is selected, and its
output changes with the ambient month on the same blob. -/
theorem C9_theorem :
    (∀ month line, dhcpLineHit month line = true ↔
      (pyContains (pyLower line) "dhcp_snooping" = true ∧
        pyStartsWith (pyStrip line) month = true)) ∧
    (∀ month d, (pySplitlines d).filter (dhcpLineHit month) = [] →
      dhcpFindings month d = []) ∧
    (∀ month d, (pySplitlines d).filter (dhcpLineHit month) ≠ [] →
      dhcpFindings month d = dhcpHeader ::
        ((pySplitlines d).filter (dhcpLineHit month)).map (fun l => indentMark ++ pyStrip l)) ∧
    dhcpFindings "Oct" "Oct 12 03:14:07 SW1 %DHCP_SNOOPING-5-UNTRUSTED_PORT: drop"
      = [dhcpHeader, indentMark ++ "Oct 12 03:14:07 SW1 %DHCP_SNOOPING-5-UNTRUSTED_PORT: drop"] ∧
    dhcpFindings "Sep" "Oct 12 03:14:07 SW1 %DHCP_SNOOPING-5-UNTRUSTED_PORT: drop" = [] := by
  refine ⟨?_, ?_, ?_, by decide, by decide⟩
  · intro month line
    rw [dhcpLineHit, Bool.and_eq_true]
  · intro month d h
    rw [dhcpFindings]
    simp [h]
  · intro month d h
    rw [dhcpFindings]
    have : (((pySplitlines d).filter (dhcpLineHit month)).map pyStrip).isEmpty = false := by
      cases hc : (pySplitlines d).filter (dhcpLineHit month) with
      | nil => exact absurd hc h
      | cons a as => rfl
    simp only [this, Bool.false_eq_true, if_false, List.map_map]
    rfl

/-- Claim C9, witness at a concrete blob and month. -/
theorem C9_witness :
    dhcpFindings "Nov" "Nov  1 00:00:01 SW2 %DHCP_SNOOPING-5: event"
      = [dhcpHeader, indentMark ++ "Nov  1 00:00:01 SW2 %DHCP_SNOOPING-5: event"] := by
  have h := C9_theorem.2.2.1 "Nov" "Nov  1 00:00:01 SW2 %DHCP_SNOOPING-5: event" (by decide)
  rw [h]
  decide

/-- Claim C10: the power parser emits, for every line containing one of the five
problem keywords case-insensitively, exactly one standalone issue consisting of
the power marker and the stripped line, grouped under no header, and emits
nothing for other lines: membership, multiplicity and keyword meaning. -/
theorem C10_theorem :
    (∀ p x, x ∈ powerFindings p ↔ ∃ line ∈ pySplitlines p,
      powerLineHit line = true ∧ x = powerMark ++ pyStrip line) ∧
    (∀ p, (powerFindings p).length = ((pySplitlines p).filter powerLineHit).length) ∧
    (∀ line, powerLineHit line = true ↔
      ∃ k ∈ ["not present", "fail", "off", "bad", "shutdown"],
        pyContains (pyLower line) k = true) ∧
    powerFindings "PS1 OK\nPS2 Failed\nFan off"
      = [powerMark ++ "PS2 Failed", powerMark ++ "Fan off"] := by
  refine ⟨fun p x => mem_powerFindings p x, ?_, ?_, by decide⟩
  · intro p
    rw [powerFindings]
    generalize pySplitlines p = ls
    induction ls with
    | nil => rfl
    | cons l rest ih =>
      by_cases h : powerLineHit l <;>
        simp [List.filter_cons, h, ih]
  · intro line
    rw [powerLineHit, List.any_eq_true]

/-- Claim C10, witness: a qualifying line is reported as one standalone entry. -/
theorem C10_witness :
    powerMark ++ "PS2 bad" ∈ powerFindings "PS2 bad" :=
  (C10_theorem.1 "PS2 bad" (powerMark ++ "PS2 bad")).mpr
    ⟨"PS2 bad", by decide, by decide, rfl⟩

end NetworkHealth
